import Mathlib

/- Shallow embedding of the multi-source company-data aggregation core of the
repository: `CompanyDataAggregator` from `data_aggregator.py` (the merge
engine `_merge_data_sources`, the derived-metrics calculator
`_calculate_derived_metrics`, and the orchestration loop of
`get_comprehensive_data`), together with the funding-amount parser
`parse_funding_amount` shared by `selenium_scraper.py` and
`simple_web_scraper.py`.  Python dict keys that may be absent are modelled
as `Option`; a raised Python exception is modelled as `Except.error`. -/

/-- One funding-round entry, a Python dict with optional keys
`date`, `amount`, `type`. -/
structure FundingRound where
  date : Option String := none
  amount : Option Int := none
  type : Option String := none
  deriving DecidableEq

/-- An element of a reported `funding_rounds` list: either a dict-shaped
round or a value of some other type (`isinstance(round_data, dict)` fails). -/
inductive RoundItem where
  | rdict (r : FundingRound)
  | nonDict
  deriving DecidableEq

/-- One collector's outcome as stored in the `all_data` mapping: the fields
the merge engine reads, each `none` when the Python dict key is absent, plus
the `error` marker key.  Numeric dict values that are not positive numbers
are filtered out by the merge itself, so numeric fields carry `Int`. -/
structure SourceResult where
  error : Option String := none
  funding_raised : Option Int := none
  valuation : Option Int := none
  employees : Option Int := none
  revenue : Option Int := none
  founders : Option (List String) := none
  investors : Option (List String) := none
  ceo : Option String := none
  founded_year : Option Int := none
  description : Option String := none
  website : Option String := none
  location : Option String := none
  funding_rounds : Option (List RoundItem) := none
  market_cap : Option Int := none
  deriving DecidableEq

/-- The merged record built by `_merge_data_sources` and augmented by
`_calculate_derived_metrics`; each optional field models presence of the
corresponding dict key. -/
structure CompanyRecord where
  name : String
  funding_raised : Option Int := none
  valuation : Option Int := none
  employees : Option Int := none
  revenue : Option Int := none
  founders : Option (List String) := none
  investors : Option (List String) := none
  ceo : Option String := none
  founded_year : Option Int := none
  description : Option String := none
  website : Option String := none
  location : Option String := none
  funding_rounds : Option (List FundingRound) := none
  company_age : Option Int := none
  funding_stage : Option String := none
  employee_size : Option String := none
  deriving DecidableEq

/-- The four source names used by the aggregator and its priority list. -/
inductive SourceName where
  | crunchbase
  | linkedin
  | web_search
  | simple_web
  deriving DecidableEq

/-- The `data_sources` mapping `{source_name -> SourceResult}`; the merge
engine only ever looks up the four known source names. -/
structure SourceMap where
  crunchbase : Option SourceResult := none
  linkedin : Option SourceResult := none
  web_search : Option SourceResult := none
  simple_web : Option SourceResult := none
  deriving DecidableEq

def SourceMap.get (m : SourceMap) : SourceName → Option SourceResult
  | .crunchbase => m.crunchbase
  | .linkedin => m.linkedin
  | .web_search => m.web_search
  | .simple_web => m.simple_web

def SourceMap.set (m : SourceMap) : SourceName → Option SourceResult → SourceMap
  | .crunchbase, v => { m with crunchbase := v }
  | .linkedin, v => { m with linkedin := v }
  | .web_search, v => { m with web_search := v }
  | .simple_web, v => { m with simple_web := v }

/-- `source_priority = ['crunchbase', 'linkedin', 'web_search', 'simple_web']`. -/
def source_priority : List SourceName :=
  [.crunchbase, .linkedin, .web_search, .simple_web]

/-- The results present in the mapping, visited in priority order
(`if source in data_sources` skips absent sources). -/
def SourceMap.priorityResults (m : SourceMap) : List SourceResult :=
  (source_priority.map m.get).filterMap id

/-- Per numeric field: the values collected by the loop
`if value and isinstance(value, (int, float)) and value > 0`. -/
def positiveValues (get : SourceResult → Option Int) (rs : List SourceResult) :
    List Int :=
  (rs.filterMap get).filter (fun v => decide (0 < v))

/-- Python `max(descriptions, key=len)`: the first string of maximal length. -/
def longestString : List String → Option String
  | [] => none
  | d :: ds => some (ds.foldl (fun best x => if best.length < x.length then x else best) d)

/-- `round_key = f"..."` built from `round_data.get('amount', '')` and
`round_data.get('type', '')` joined by a dash. -/
def roundKey (r : FundingRound) : String :=
  (match r.amount with | some a => toString a | none => "") ++ "-" ++
    (match r.type with | some t => t | none => "")

/-- The dedup loop over `all_rounds` with its `seen_rounds` set: dict-shaped
rounds are kept the first time their key is seen; non-dict items are skipped. -/
def dedupRounds : List RoundItem → List String → List FundingRound
  | [], _ => []
  | .rdict r :: rest, seen =>
    if roundKey r ∈ seen then dedupRounds rest seen
    else r :: dedupRounds rest (roundKey r :: seen)
  | .nonDict :: rest, seen => dedupRounds rest seen

/-- The body of `_merge_data_sources` after the per-source lookups have been
flattened into the priority-ordered list of present results. -/
def mergeFromResults (rs : List SourceResult) (company_name : String) :
    CompanyRecord :=
  { name := company_name
    funding_raised := (positiveValues (fun r => r.funding_raised) rs).max?
    valuation := (positiveValues (fun r => r.valuation) rs).max?
    employees := (positiveValues (fun r => r.employees) rs).max?
    revenue := (positiveValues (fun r => r.revenue) rs).max?
    founders :=
      let all_founders := rs.flatMap (fun r => (r.founders).getD [])
      if all_founders.isEmpty then none
      else some ((all_founders.filter (fun f => decide (f ≠ ""))).dedup)
    investors :=
      let all_investors := rs.flatMap (fun r => (r.investors).getD [])
      if all_investors.isEmpty then none
      else some ((all_investors.filter (fun i => decide (i ≠ ""))).dedup)
    ceo := rs.findSome? (fun r => (r.ceo).bind (fun c =>
      if c ≠ "" ∧ c.trim ≠ "" then some c.trim else none))
    founded_year := rs.findSome? (fun r => (r.founded_year).bind (fun y =>
      if y ≠ 0 ∧ 1900 < y then some y else none))
    description := longestString (rs.filterMap (fun r => (r.description).bind (fun d =>
      if d ≠ "" ∧ d.trim ≠ "" then some d.trim else none)))
    website := rs.findSome? (fun r => (r.website).bind (fun w =>
      if w ≠ "" ∧ w.trim ≠ "" ∧ w.startsWith "http" then some w.trim else none))
    location := rs.findSome? (fun r => (r.location).bind (fun v =>
      if v ≠ "" ∧ v.trim ≠ "" then some v.trim else none))
    funding_rounds :=
      let all_rounds := rs.flatMap (fun r => (r.funding_rounds).getD [])
      if all_rounds.isEmpty then none else some (dedupRounds all_rounds []) }

/-- `current_year = 2024` hard-coded in `_calculate_derived_metrics`. -/
def current_year : Int := 2024

/-- The funding-stage bucket chain of `_calculate_derived_metrics`. -/
def funding_stage_of (funding : Int) : String :=
  if funding < 1000000 then "Pre-Seed"
  else if funding < 5000000 then "Seed"
  else if funding < 20000000 then "Series A"
  else if funding < 50000000 then "Series B"
  else if funding < 100000000 then "Series C+"
  else "Late Stage"

/-- The employee-size bucket chain of `_calculate_derived_metrics`. -/
def employee_size_of (employees : Int) : String :=
  if employees < 10 then "Startup (1-9)"
  else if employees < 50 then "Small (10-49)"
  else if employees < 200 then "Medium (50-199)"
  else if employees < 1000 then "Large (200-999)"
  else "Enterprise (1000+)"

/-- `_calculate_derived_metrics`: each `data.get(key)` guard is key present
and value truthy (a non-zero number). -/
def calculate_derived_metrics (data : CompanyRecord) : CompanyRecord :=
  { data with
    company_age :=
      match data.founded_year with
      | some y => if y ≠ 0 then some (current_year - y) else data.company_age
      | none => data.company_age
    funding_stage :=
      match data.funding_raised with
      | some f => if f ≠ 0 then some (funding_stage_of f) else data.funding_stage
      | none => data.funding_stage
    employee_size :=
      match data.employees with
      | some e => if e ≠ 0 then some (employee_size_of e) else data.employee_size
      | none => data.employee_size }

/-- `_merge_data_sources` including its final call to
`_calculate_derived_metrics`. -/
def merge_data_sources (data_sources : SourceMap) (company_name : String) :
    CompanyRecord :=
  calculate_derived_metrics (mergeFromResults data_sources.priorityResults company_name)

/-- The error descriptor dict stored for a failed source. -/
def errorResult (msg : String) : SourceResult := { error := some msg }

/-- The empty (falsy) Python dict. -/
def emptyDict : SourceResult := {}

/-- The registered scrapers, each a function from company name to the dict
it returns (a scraper that raises is observed by the aggregator's
`except` clause as an error dict, i.e. `errorResult`). -/
structure Scrapers where
  crunchbase : String → SourceResult
  linkedin : String → SourceResult
  web_search : String → SourceResult
  simple_web : String → SourceResult

/-- `self.scrapers.items()` in registration order. -/
def scraperItems (s : Scrapers) : List (SourceName × (String → SourceResult)) :=
  [(.crunchbase, s.crunchbase), (.linkedin, s.linkedin),
   (.web_search, s.web_search), (.simple_web, s.simple_web)]

/-- `if data and 'error' not in data:` store `data` and count a success;
otherwise store an error dict with the reason
`data.get('error', 'No data found')`. -/
def storeOutcome (data : SourceResult) : SourceResult × Bool :=
  if data ≠ emptyDict ∧ data.error = none then (data, true)
  else (errorResult ((data.error).getD "No data found"), false)

/-- The value returned by `get_comprehensive_data`: the merged record plus
the `metadata` entries, with an explicit count of collector invocations
(one per iteration of the scraper loop). -/
structure AggResult where
  record : CompanyRecord
  successful_sources : Nat
  total_sources : Nat
  scraped_sources : List SourceName
  collector_calls : Nat
  deriving DecidableEq

/-- `get_comprehensive_data`: loop over every registered scraper, store each
outcome (success or error) in `all_data`, then merge and attach metadata. -/
def get_comprehensive_data (s : Scrapers) (company_name : String) : AggResult :=
  let step := fun (acc : SourceMap × Nat × Nat)
      (item : SourceName × (String → SourceResult)) =>
    let data := item.2 company_name
    let stored := storeOutcome data
    (acc.1.set item.1 (some stored.1),
     acc.2.1 + (if stored.2 then 1 else 0),
     acc.2.2 + 1)
  let folded := (scraperItems s).foldl step ({}, 0, 0)
  { record := merge_data_sources folded.1 company_name
    successful_sources := folded.2.1
    total_sources := (scraperItems s).length
    scraped_sources := (scraperItems s).map (fun it => it.1)
    collector_calls := folded.2.2 }

/-- Dict-key view of one optional field of the merged record. -/
def presentKeys {α : Type} (o : Option α) (key : String) : List String :=
  match o with
  | some _ => [key]
  | none => []

/-- The dict keys of a merged `CompanyRecord` (the `metadata` key is modelled
separately, in `AggResult`). -/
def CompanyRecord.fieldNames (r : CompanyRecord) : List String :=
  ["name"] ++ presentKeys r.funding_raised "funding_raised"
    ++ presentKeys r.valuation "valuation"
    ++ presentKeys r.employees "employees"
    ++ presentKeys r.revenue "revenue"
    ++ presentKeys r.founders "founders"
    ++ presentKeys r.investors "investors"
    ++ presentKeys r.ceo "ceo"
    ++ presentKeys r.founded_year "founded_year"
    ++ presentKeys r.description "description"
    ++ presentKeys r.website "website"
    ++ presentKeys r.location "location"
    ++ presentKeys r.funding_rounds "funding_rounds"
    ++ presentKeys r.company_age "company_age"
    ++ presentKeys r.funding_stage "funding_stage"
    ++ presentKeys r.employee_size "employee_size"

/-- The data fields a merged record may carry (everything
`_merge_data_sources` or `_calculate_derived_metrics` can assign). -/
def allowedFieldNames : List String :=
  ["name", "funding_raised", "valuation", "employees", "revenue", "founders",
   "investors", "ceo", "founded_year", "description", "website", "location",
   "funding_rounds", "company_age", "funding_stage", "employee_size"]

def SourceResult.clearMarketCap (r : SourceResult) : SourceResult :=
  { r with market_cap := none }

def SourceMap.clearMarketCap (m : SourceMap) : SourceMap :=
  { crunchbase := m.crunchbase.map SourceResult.clearMarketCap
    linkedin := m.linkedin.map SourceResult.clearMarketCap
    web_search := m.web_search.map SourceResult.clearMarketCap
    simple_web := m.simple_web.map SourceResult.clearMarketCap }

/-- `re.sub(r'[^\d.,$MBK]', '', text.upper())`, kept as a character list. -/
def stripToAmountChars (text : String) : List Char :=
  ((text.toList).map Char.toUpper).filter (fun c =>
    c.isDigit ∨ c = '.' ∨ c = ',' ∨ c = '$' ∨ c = 'M' ∨ c = 'B' ∨ c = 'K')

def isNumComma (c : Char) : Bool := c.isDigit ∨ c = ','

/-- Greedy match of the regex `[\d,]+\.?\d*` at a position whose first
character is already known to match `[\d,]`. -/
def matchAmountAt (cs : List Char) : List Char :=
  let part1 := cs.takeWhile isNumComma
  match cs.drop part1.length with
  | '.' :: rest2 => part1 ++ '.' :: rest2.takeWhile Char.isDigit
  | _ => part1

/-- `re.search(r'[\d,]+\.?\d*', text)`: leftmost match. -/
def searchAmountToken : List Char → Option (List Char)
  | [] => none
  | c :: cs => if isNumComma c then some (matchAmountAt (c :: cs)) else searchAmountToken cs

def digitsToNat (ds : List Char) : Nat :=
  ds.foldl (fun n c => 10 * n + (c.toNat - Char.toNat '0')) 0

/-- Python `float(s)` on a string drawn from digits and dots: raises
`ValueError` unless the string contains at least one digit (exact rational
value; the matched token contains at most one dot). -/
def pyFloatOfDigitDot (cs : List Char) : Except String Rat :=
  if (cs.all (fun c => c.isDigit ∨ c = '.')) ∧ cs.count '.' ≤ 1 ∧ cs.any Char.isDigit
  then
    let intPart := cs.takeWhile Char.isDigit
    let fracPart := (cs.drop (intPart.length + 1)).takeWhile Char.isDigit
    .ok ((digitsToNat intPart : Rat) + (digitsToNat fracPart : Rat) / ((10 : Rat) ^ fracPart.length))
  else .error "ValueError: could not convert string to float"

/-- `parse_funding_amount` from `selenium_scraper.py` (the identical
`_parse_funding_amount` appears in `simple_web_scraper.py`); `.error`
models a raised Python exception escaping the function. -/
def parse_funding_amount (text : String) : Except String (Option Rat) :=
  if text = "" then .ok none
  else
    let t := stripToAmountChars text
    match searchAmountToken t with
    | none => .ok none
    | some tok =>
      match pyFloatOfDigitDot (tok.filter (fun c => c ≠ ',')) with
      | .error e => .error e
      | .ok amount =>
        let amount := if t.contains 'B' then amount * 1000000000
          else if t.contains 'M' then amount * 1000000
          else if t.contains 'K' then amount * 1000
          else amount
        .ok (some amount)

/-- All funding-round items reported by present sources, in priority order
(the `all_rounds` list of the merge). -/
def allRoundsOf (m : SourceMap) : List RoundItem :=
  m.priorityResults.flatMap (fun r => (r.funding_rounds).getD [])

/-- Specification-side predicate, following the spec's words: `o` is the
maximum over the positive values reported by sources for the field read by
`get`, and is absent when no source reported a positive value. -/
def SpecMaxOfPositiveReported (m : SourceMap) (get : SourceResult → Option Int)
    (o : Option Int) : Prop :=
  (∀ v, o = some v → 0 < v ∧ (∃ r ∈ m.priorityResults, get r = some v) ∧
    ∀ w, 0 < w → (∃ r ∈ m.priorityResults, get r = some w) → w ≤ v) ∧
  (o = none ↔ ∀ w, 0 < w → ¬ ∃ r ∈ m.priorityResults, get r = some w)

/-- Scenario map: crunchbase reports 2M funding, linkedin 6M and 40 employees. -/
def mapScenario1 : SourceMap :=
  { crunchbase := some { funding_raised := some 2000000 }
    linkedin := some { funding_raised := some 6000000, employees := some 40 } }

/-- Scrapers that all fail. -/
def allErrorScrapers : Scrapers :=
  { crunchbase := fun _ => errorResult "blocked"
    linkedin := fun _ => errorResult "blocked"
    web_search := fun _ => errorResult "no results"
    simple_web := fun _ => errorResult "timeout" }

/-- Map with a single source reporting a founding year. -/
def mapFounded : SourceMap :=
  { crunchbase := some { founded_year := some 2010 } }

/-- Map with a single source reporting exactly 5,000,000 of funding. -/
def mapFiveMillion : SourceMap :=
  { crunchbase := some { funding_raised := some 5000000 } }

/-- Map whose only source reports a whitespace-only founder name. -/
def mapWhitespaceFounder : SourceMap :=
  { crunchbase := some { founders := some [" "] } }

/-- Map whose only source reports one round with neither amount nor type. -/
def mapEmptyRound : SourceMap :=
  { crunchbase := some { funding_rounds := some [.rdict {}] } }

/-- The round dict (amount 5,000,000, type "Seed"). -/
def seedRound : FundingRound := { amount := some 5000000, type := some "Seed" }

/-- Map where two sources both report the round (5,000,000, "Seed"). -/
def mapDupRounds : SourceMap :=
  { crunchbase := some { funding_rounds := some [.rdict seedRound] }
    linkedin := some { funding_rounds := some [.rdict seedRound] } }

lemma mem_positiveValues {get : SourceResult → Option Int} {rs : List SourceResult}
    {w : Int} :
    w ∈ positiveValues get rs ↔ 0 < w ∧ ∃ r ∈ rs, get r = some w := by
  simp [positiveValues, List.mem_filter, List.mem_filterMap, and_comm]

lemma specMax_of_max? (m : SourceMap) (get : SourceResult → Option Int) :
    SpecMaxOfPositiveReported m get ((positiveValues get m.priorityResults).max?) := by
  constructor
  · intro v hv
    obtain ⟨h0, hrep⟩ := mem_positiveValues.mp (List.max?_mem max_choice hv)
    refine ⟨h0, hrep, fun w hw hr => ?_⟩
    exact (List.max?_le_iff (fun _ _ _ => max_le_iff) hv).mp le_rfl w
      (mem_positiveValues.mpr ⟨hw, hr⟩)
  · rw [List.max?_eq_none_iff, List.eq_nil_iff_forall_not_mem]
    constructor
    · intro h w hw hr
      exact h w (mem_positiveValues.mpr ⟨hw, hr⟩)
    · intro h w hw
      rw [mem_positiveValues] at hw
      exact h w hw.1 hw.2

lemma priorityResults_eq (m : SourceMap) :
    m.priorityResults = m.crunchbase.toList ++ m.linkedin.toList
      ++ m.web_search.toList ++ m.simple_web.toList := by
  obtain ⟨c, li, w, sw⟩ := m
  cases c <;> cases li <;> cases w <;> cases sw <;> rfl

lemma mergeFromResults_middle_error (l₁ l₂ : List SourceResult) (msg cn : String) :
    mergeFromResults (l₁ ++ errorResult msg :: l₂) cn = mergeFromResults (l₁ ++ l₂) cn := by
  unfold mergeFromResults
  simp [positiveValues, errorResult, List.filterMap_append, List.filterMap_cons,
    List.flatMap_append, List.flatMap_cons, List.findSome?_append, List.findSome?_cons]

lemma priorityResults_set_decomp (m : SourceMap) (s : SourceName) (e : SourceResult) :
    ∃ l₁ l₂, (m.set s (some e)).priorityResults = l₁ ++ e :: l₂ ∧
      (m.set s none).priorityResults = l₁ ++ l₂ := by
  cases s with
  | crunchbase =>
    exact ⟨[], m.linkedin.toList ++ m.web_search.toList ++ m.simple_web.toList,
      by simp [priorityResults_eq, SourceMap.set], by simp [priorityResults_eq, SourceMap.set]⟩
  | linkedin =>
    exact ⟨m.crunchbase.toList, m.web_search.toList ++ m.simple_web.toList,
      by simp [priorityResults_eq, SourceMap.set], by simp [priorityResults_eq, SourceMap.set]⟩
  | web_search =>
    exact ⟨m.crunchbase.toList ++ m.linkedin.toList, m.simple_web.toList,
      by simp [priorityResults_eq, SourceMap.set], by simp [priorityResults_eq, SourceMap.set]⟩
  | simple_web =>
    exact ⟨m.crunchbase.toList ++ m.linkedin.toList ++ m.web_search.toList, [],
      by simp [priorityResults_eq, SourceMap.set], by simp [priorityResults_eq, SourceMap.set]⟩

/-- C1: for every input mapping of SourceResults, the merged value of each
numeric field (funding_raised, valuation, employees, revenue) is the maximum
of the positive values reported by sources for that field, and the field is
absent from the merged record when no source reported a positive value. -/
theorem merge_numeric_fields_max_of_positive (m : SourceMap) (cn : String) :
    SpecMaxOfPositiveReported m (fun r => r.funding_raised)
      ((merge_data_sources m cn).funding_raised)
    ∧ SpecMaxOfPositiveReported m (fun r => r.valuation)
      ((merge_data_sources m cn).valuation)
    ∧ SpecMaxOfPositiveReported m (fun r => r.employees)
      ((merge_data_sources m cn).employees)
    ∧ SpecMaxOfPositiveReported m (fun r => r.revenue)
      ((merge_data_sources m cn).revenue) :=
  ⟨specMax_of_max? m _, specMax_of_max? m _, specMax_of_max? m _, specMax_of_max? m _⟩

/-- Witness for C1: on the concrete two-source map, the merged funding_raised
is a positive reported value that dominates every positive reported value. -/
theorem merge_numeric_fields_max_of_positive_witness :
    0 < (6000000 : Int)
    ∧ (∃ r ∈ mapScenario1.priorityResults, r.funding_raised = some 6000000)
    ∧ ∀ w, 0 < w → (∃ r ∈ mapScenario1.priorityResults, r.funding_raised = some w) →
        w ≤ 6000000 :=
  (merge_numeric_fields_max_of_positive mapScenario1 "Acme").1.1 6000000 (by decide)

/-- C2: a source present only as an error descriptor contributes nothing: the
merge output on a mapping holding an error entry for a source equals the
output on the mapping with that source removed entirely. -/
theorem merge_ignores_errored_source (m : SourceMap) (s : SourceName)
    (msg cn : String) :
    merge_data_sources (m.set s (some (errorResult msg))) cn =
      merge_data_sources (m.set s none) cn := by
  obtain ⟨l₁, l₂, h1, h2⟩ := priorityResults_set_decomp m s (errorResult msg)
  unfold merge_data_sources
  rw [h1, h2, mergeFromResults_middle_error]

lemma exists_of_findSome {α β : Type} (f : α → Option β) :
    ∀ (l : List α) (b : β), l.findSome? f = some b → ∃ a ∈ l, f a = some b := by
  intro l b
  induction l with
  | nil => simp [List.findSome?]
  | cons a t ih =>
    intro hb
    rw [List.findSome?_cons] at hb
    cases h : f a with
    | some c =>
      rw [h] at hb
      exact ⟨a, List.mem_cons_self a t, by rw [h]; exact hb⟩
    | none =>
      rw [h] at hb
      obtain ⟨x, hx, hfx⟩ := ih hb
      exact ⟨x, List.mem_cons_of_mem _ hx, hfx⟩

lemma merged_founded_year_bounds (m : SourceMap) (cn : String) (y : Int)
    (h : (mergeFromResults m.priorityResults cn).founded_year = some y) :
    y ≠ 0 ∧ 1900 < y := by
  obtain ⟨r, _, hr⟩ := exists_of_findSome _ _ _ h
  cases hry : r.founded_year with
  | none => rw [hry] at hr; simp at hr
  | some y' =>
    rw [hry] at hr
    simp only [Option.some_bind] at hr
    split at hr
    · next hcond =>
      cases hr
      exact hcond
    · simp at hr

/-- C7: company_age equals current_year minus founded_year whenever
founded_year is present in the merged record, and is absent whenever
founded_year is absent. -/
theorem company_age_iff_founded_year (m : SourceMap) (cn : String) :
    (∀ y, (merge_data_sources m cn).founded_year = some y →
      (merge_data_sources m cn).company_age = some (current_year - y))
    ∧ ((merge_data_sources m cn).founded_year = none →
      (merge_data_sources m cn).company_age = none) := by
  constructor
  · intro y hy
    have hfy : (mergeFromResults m.priorityResults cn).founded_year = some y := hy
    have hy0 : y ≠ 0 := (merged_founded_year_bounds m cn y hfy).1
    show (calculate_derived_metrics (mergeFromResults m.priorityResults cn)).company_age = _
    simp [calculate_derived_metrics, hfy, hy0]
  · intro hy
    have hfy : (mergeFromResults m.priorityResults cn).founded_year = none := hy
    show (calculate_derived_metrics (mergeFromResults m.priorityResults cn)).company_age = none
    simp [calculate_derived_metrics, hfy]
    rfl

/-- Witness for C7 at a concrete map: founded_year 2010 gives age 14. -/
theorem company_age_iff_founded_year_witness :
    (merge_data_sources mapFounded "X").company_age = some (current_year - 2010) :=
  (company_age_iff_founded_year mapFounded "X").1 2010 (by decide)

/-- C6: inclusive-low/exclusive-high funding-stage buckets on the merged
record: below 1M Pre-Seed, [1M,5M) Seed, [5M,20M) Series A, [20M,50M)
Series B, [50M,100M) Series C+, at or above 100M Late Stage; absent when
funding_raised is absent.  In particular exactly 5,000,000 is Series A. -/
theorem funding_stage_buckets (m : SourceMap) (cn : String) :
    (∀ f, (merge_data_sources m cn).funding_raised = some f →
      ((f < 1000000 → (merge_data_sources m cn).funding_stage = some "Pre-Seed")
       ∧ (1000000 ≤ f → f < 5000000 →
          (merge_data_sources m cn).funding_stage = some "Seed")
       ∧ (5000000 ≤ f → f < 20000000 →
          (merge_data_sources m cn).funding_stage = some "Series A")
       ∧ (20000000 ≤ f → f < 50000000 →
          (merge_data_sources m cn).funding_stage = some "Series B")
       ∧ (50000000 ≤ f → f < 100000000 →
          (merge_data_sources m cn).funding_stage = some "Series C+")
       ∧ (100000000 ≤ f →
          (merge_data_sources m cn).funding_stage = some "Late Stage")))
    ∧ ((merge_data_sources m cn).funding_raised = none →
      (merge_data_sources m cn).funding_stage = none) := by
  constructor
  · intro f hf
    have h0 : 0 < f :=
      (((specMax_of_max? m (fun r => r.funding_raised)).1) f hf).1
    have hbase : (mergeFromResults m.priorityResults cn).funding_raised = some f := hf
    have hstage : (merge_data_sources m cn).funding_stage = some (funding_stage_of f) := by
      show (calculate_derived_metrics (mergeFromResults m.priorityResults cn)).funding_stage = _
      simp [calculate_derived_metrics, hbase, show f ≠ 0 by omega]
    refine ⟨fun h1 => ?_, fun h1 h2 => ?_, fun h1 h2 => ?_, fun h1 h2 => ?_,
      fun h1 h2 => ?_, fun h1 => ?_⟩ <;> rw [hstage] <;> unfold funding_stage_of
    · rw [if_pos h1]
    · rw [if_neg (by omega), if_pos h2]
    · rw [if_neg (by omega), if_neg (by omega), if_pos h2]
    · rw [if_neg (by omega), if_neg (by omega), if_neg (by omega), if_pos h2]
    · rw [if_neg (by omega), if_neg (by omega), if_neg (by omega), if_neg (by omega),
        if_pos h2]
    · rw [if_neg (by omega), if_neg (by omega), if_neg (by omega), if_neg (by omega),
        if_neg (by omega)]
  · intro hf
    have hbase : (mergeFromResults m.priorityResults cn).funding_raised = none := hf
    show (calculate_derived_metrics (mergeFromResults m.priorityResults cn)).funding_stage = none
    simp [calculate_derived_metrics, hbase]
    rfl

/-- Witness for C6: a merged funding_raised of exactly 5,000,000 yields
funding_stage "Series A", not "Seed". -/
theorem funding_stage_buckets_witness :
    (merge_data_sources mapFiveMillion "X").funding_stage = some "Series A" :=
  (((funding_stage_buckets mapFiveMillion "X").1 5000000 (by decide)).2.2.1)
    (by omega) (by omega)

/-- C3 counterexample: with the company name empty, the aggregator performs
no validation: all 4 collectors are invoked (call count is 4, not 0), no
exception is raised, and a record with the empty name is returned. -/
theorem empty_name_no_validation_counterexample :
    (get_comprehensive_data allErrorScrapers "").collector_calls = 4
    ∧ ¬ ((get_comprehensive_data allErrorScrapers "").collector_calls = 0)
    ∧ (get_comprehensive_data allErrorScrapers "").record.name = "" := by
  decide

/-- C3 amended: `get_comprehensive_data` validates nothing: for every company
name (empty and whitespace-only included) and any collectors, it invokes all
4 registered collectors and returns a record whose name is the input
verbatim; the code defines no ValidationError and raises nothing. -/
theorem no_input_validation_all_collectors_run (s : Scrapers) (cn : String) :
    (get_comprehensive_data s cn).collector_calls = 4
    ∧ (get_comprehensive_data s cn).record.name = cn :=
  ⟨rfl, rfl⟩

lemma merge_all_errors (e1 e2 e3 e4 : String) (cn : String) :
    merge_data_sources
      ⟨some (errorResult e1), some (errorResult e2),
       some (errorResult e3), some (errorResult e4)⟩ cn = { name := cn } := rfl

lemma storeOutcome_of_error {data : SourceResult} {e : String}
    (h : data.error = some e) : storeOutcome data = (errorResult e, false) := by
  unfold storeOutcome
  rw [if_neg]
  · rw [h]; rfl
  · intro hcon
    rw [h] at hcon
    exact Option.some_ne_none e hcon.2

/-- C4: if every registered collector returns an error SourceResult, the
aggregation still returns a record containing exactly the queried name, with
metadata counting 0 successful sources out of the 4 registered. -/
theorem all_sources_error_degenerate_record (s : Scrapers) (cn : String)
    (h1 : (s.crunchbase cn).error ≠ none)
    (h2 : (s.linkedin cn).error ≠ none)
    (h3 : (s.web_search cn).error ≠ none)
    (h4 : (s.simple_web cn).error ≠ none) :
    (get_comprehensive_data s cn).record.fieldNames = ["name"]
    ∧ (get_comprehensive_data s cn).record.name = cn
    ∧ (get_comprehensive_data s cn).successful_sources = 0
    ∧ (get_comprehensive_data s cn).total_sources = 4 := by
  obtain ⟨e1, he1⟩ := Option.ne_none_iff_exists.mp h1
  obtain ⟨e2, he2⟩ := Option.ne_none_iff_exists.mp h2
  obtain ⟨e3, he3⟩ := Option.ne_none_iff_exists.mp h3
  obtain ⟨e4, he4⟩ := Option.ne_none_iff_exists.mp h4
  have hs1 := storeOutcome_of_error he1.symm
  have hs2 := storeOutcome_of_error he2.symm
  have hs3 := storeOutcome_of_error he3.symm
  have hs4 := storeOutcome_of_error he4.symm
  simp only [get_comprehensive_data, scraperItems, List.foldl, hs1, hs2, hs3, hs4]
  refine ⟨?_, rfl, rfl, rfl⟩
  show (merge_data_sources
      ⟨some (errorResult e1), some (errorResult e2),
       some (errorResult e3), some (errorResult e4)⟩ cn).fieldNames = ["name"]
  rw [merge_all_errors]
  rfl

/-- Witness for C4: the concrete all-failing scrapers produce the degenerate
record for "Acme". -/
theorem all_sources_error_degenerate_record_witness :
    (get_comprehensive_data allErrorScrapers "Acme").record.fieldNames = ["name"]
    ∧ (get_comprehensive_data allErrorScrapers "Acme").record.name = "Acme"
    ∧ (get_comprehensive_data allErrorScrapers "Acme").successful_sources = 0
    ∧ (get_comprehensive_data allErrorScrapers "Acme").total_sources = 4 :=
  all_sources_error_degenerate_record allErrorScrapers "Acme"
    (by decide) (by decide) (by decide) (by decide)

/-- C5 (code bug): the funding-amount parser raises on malformed input: on
the text "," the regex token is the bare comma, comma removal leaves the
empty string, and `float('')` raises ValueError, contradicting the
never-raises guarantee. -/
theorem parse_funding_amount_raises_on_comma :
    parse_funding_amount "," = .error "ValueError: could not convert string to float" := by
  rfl

/-- C9 counterexample: a whitespace-only founder string survives the merge
(the filter drops only falsy strings, i.e. the empty string). -/
theorem founders_whitespace_counterexample :
    (merge_data_sources mapWhitespaceFounder "X").founders = some [" "]
    ∧ (" " : String) ≠ "" ∧ (" " : String).toList.all Char.isWhitespace = true := by
  exact ⟨by decide, by decide, by decide⟩

/-- C9 amended: the merged founders and investors collections never contain
the empty string, but whitespace-only strings are not filtered and may
appear. -/
theorem founders_investors_no_empty_strings (m : SourceMap) (cn : String) :
    "" ∉ (((merge_data_sources m cn).founders).getD [])
    ∧ "" ∉ (((merge_data_sources m cn).investors).getD []) := by
  have h : ∀ (all : List String),
      "" ∉ ((if all.isEmpty then none
        else some ((all.filter (fun f => decide (f ≠ ""))).dedup) : Option (List String)).getD []) := by
    intro all
    split
    · simp
    · intro hmem
      simp only [Option.getD_some] at hmem
      rw [List.mem_dedup, List.mem_filter] at hmem
      simp at hmem
  exact ⟨h _, h _⟩

/-- C8 counterexample: a round entry with neither amount nor type is not
dropped by the merge: it appears in the merged funding_rounds. -/
theorem empty_round_not_dropped_counterexample :
    (merge_data_sources mapEmptyRound "X").funding_rounds
      = some [{ date := none, amount := none, type := none }] := by
  decide

lemma dedupRounds_mem : ∀ (l : List RoundItem) (seen : List String) (r : FundingRound),
    r ∈ dedupRounds l seen → RoundItem.rdict r ∈ l
  | [], _, _, h => by simp [dedupRounds] at h
  | .rdict q :: t, seen, r, h => by
    by_cases hk : roundKey q ∈ seen
    · rw [show dedupRounds (.rdict q :: t) seen = dedupRounds t seen from by
        simp [dedupRounds, hk]] at h
      exact List.mem_cons_of_mem _ (dedupRounds_mem t seen r h)
    · rw [show dedupRounds (.rdict q :: t) seen
          = q :: dedupRounds t (roundKey q :: seen) from by simp [dedupRounds, hk]] at h
      rcases List.mem_cons.mp h with h | h
      · rw [h]; exact List.mem_cons_self _ _
      · exact List.mem_cons_of_mem _ (dedupRounds_mem t _ r h)
  | .nonDict :: t, seen, r, h => by
    rw [show dedupRounds (.nonDict :: t) seen = dedupRounds t seen from rfl] at h
    exact List.mem_cons_of_mem _ (dedupRounds_mem t seen r h)

lemma dedupRounds_key_fresh : ∀ (l : List RoundItem) (seen : List String) (r : FundingRound),
    r ∈ dedupRounds l seen → roundKey r ∉ seen
  | [], _, _, h => by simp [dedupRounds] at h
  | .rdict q :: t, seen, r, h => by
    by_cases hk : roundKey q ∈ seen
    · rw [show dedupRounds (.rdict q :: t) seen = dedupRounds t seen from by
        simp [dedupRounds, hk]] at h
      exact dedupRounds_key_fresh t seen r h
    · rw [show dedupRounds (.rdict q :: t) seen
          = q :: dedupRounds t (roundKey q :: seen) from by simp [dedupRounds, hk]] at h
      rcases List.mem_cons.mp h with h | h
      · rw [h]; exact hk
      · exact fun hc =>
          dedupRounds_key_fresh t _ r h (List.mem_cons_of_mem _ hc)
  | .nonDict :: t, seen, r, h => by
    rw [show dedupRounds (.nonDict :: t) seen = dedupRounds t seen from rfl] at h
    exact dedupRounds_key_fresh t seen r h

lemma dedupRounds_keys_nodup : ∀ (l : List RoundItem) (seen : List String),
    ((dedupRounds l seen).map roundKey).Nodup
  | [], _ => by simp [dedupRounds]
  | .rdict q :: t, seen => by
    by_cases hk : roundKey q ∈ seen
    · rw [show dedupRounds (.rdict q :: t) seen = dedupRounds t seen from by
        simp [dedupRounds, hk]]
      exact dedupRounds_keys_nodup t seen
    · rw [show dedupRounds (.rdict q :: t) seen
          = q :: dedupRounds t (roundKey q :: seen) from by simp [dedupRounds, hk]]
      rw [List.map_cons, List.nodup_cons]
      refine ⟨fun hc => ?_, dedupRounds_keys_nodup t _⟩
      obtain ⟨r', hr', hkey⟩ := List.mem_map.mp hc
      exact dedupRounds_key_fresh t _ r' hr' (by rw [hkey]; exact List.mem_cons_self _ _)
  | .nonDict :: t, seen => by
    rw [show dedupRounds (.nonDict :: t) seen = dedupRounds t seen from rfl]
    exact dedupRounds_keys_nodup t seen

lemma dedupRounds_covers : ∀ (l : List RoundItem) (seen : List String) (r : FundingRound),
    RoundItem.rdict r ∈ l → roundKey r ∉ seen →
      ∃ r' ∈ dedupRounds l seen, roundKey r' = roundKey r
  | [], _, _, hmem, _ => by simp at hmem
  | .rdict q :: t, seen, r, hmem, hseen => by
    by_cases hk : roundKey q ∈ seen
    · rw [show dedupRounds (.rdict q :: t) seen = dedupRounds t seen from by
        simp [dedupRounds, hk]]
      rcases List.mem_cons.mp hmem with h | h
      · cases h
        exact absurd hk hseen
      · exact dedupRounds_covers t seen r h hseen
    · rw [show dedupRounds (.rdict q :: t) seen
          = q :: dedupRounds t (roundKey q :: seen) from by simp [dedupRounds, hk]]
      rcases List.mem_cons.mp hmem with h | h
      · cases h
        exact ⟨q, List.mem_cons_self _ _, rfl⟩
      · by_cases hkr : roundKey r = roundKey q
        · exact ⟨q, List.mem_cons_self _ _, hkr.symm⟩
        · obtain ⟨r', hr', hkey⟩ := dedupRounds_covers t (roundKey q :: seen) r h
            (by
              intro hc
              rcases List.mem_cons.mp hc with hc | hc
              · exact hkr hc
              · exact hseen hc)
          exact ⟨r', List.mem_cons_of_mem _ hr', hkey⟩
  | .nonDict :: t, seen, r, hmem, hseen => by
    rw [show dedupRounds (.nonDict :: t) seen = dedupRounds t seen from rfl]
    rcases List.mem_cons.mp hmem with h | h
    · cases h
    · exact dedupRounds_covers t seen r h hseen

/-- C8 amended: rounds with neither amount nor type are kept, not dropped
(only non-dict items are skipped); the merged funding_rounds is the reported
rounds deduplicated by the string key built from (amount, type): every kept
entry was reported, keys are pairwise distinct, and each reported dict
entry's key is represented exactly once. -/
theorem funding_rounds_dedup_by_key (m : SourceMap) (cn : String)
    (l : List FundingRound)
    (h : (merge_data_sources m cn).funding_rounds = some l) :
    ((l.map roundKey).Nodup)
    ∧ (∀ r ∈ l, RoundItem.rdict r ∈ allRoundsOf m)
    ∧ (∀ r, RoundItem.rdict r ∈ allRoundsOf m →
        ∃ r' ∈ l, roundKey r' = roundKey r) := by
  have hbase : (if (allRoundsOf m).isEmpty then none
      else some (dedupRounds (allRoundsOf m) []) : Option (List FundingRound)) = some l := h
  have hl : l = dedupRounds (allRoundsOf m) [] := by
    revert hbase
    split
    · intro hc; cases hc
    · intro hc; cases hc; rfl
  rw [hl]
  exact ⟨dedupRounds_keys_nodup _ _,
    fun r hr => dedupRounds_mem _ _ _ hr,
    fun r hr => dedupRounds_covers _ _ _ hr (by simp)⟩

/-- Witness for C8 amended: the duplicated (5,000,000, "Seed") round is
merged into a single entry with the stated dedup properties. -/
theorem funding_rounds_dedup_by_key_witness :
    ((([seedRound] : List FundingRound).map roundKey).Nodup)
    ∧ (∀ r ∈ ([seedRound] : List FundingRound),
        RoundItem.rdict r ∈ allRoundsOf mapDupRounds)
    ∧ (∀ r, RoundItem.rdict r ∈ allRoundsOf mapDupRounds →
        ∃ r' ∈ ([seedRound] : List FundingRound), roundKey r' = roundKey r) :=
  funding_rounds_dedup_by_key mapDupRounds "X" [seedRound] (by decide)

lemma priorityResults_clearMarketCap (m : SourceMap) :
    m.clearMarketCap.priorityResults = m.priorityResults.map SourceResult.clearMarketCap := by
  obtain ⟨c, li, w, sw⟩ := m
  cases c <;> cases li <;> cases w <;> cases sw <;> rfl

lemma mergeFromResults_map_clear (l : List SourceResult) (cn : String) :
    mergeFromResults (l.map SourceResult.clearMarketCap) cn = mergeFromResults l cn := by
  unfold mergeFromResults
  simp only [positiveValues, List.filterMap_map, List.findSome?_map, List.flatMap_map]
  rfl

lemma presentKeys_subset_iff {α : Type} (o : Option α) (k : String) (L : List String) :
    presentKeys o k ⊆ L ↔ (o.isSome → k ∈ L) := by
  cases o <;> simp [presentKeys]

lemma fieldNames_subset_allowed (r : CompanyRecord) :
    r.fieldNames ⊆ allowedFieldNames := by
  unfold CompanyRecord.fieldNames allowedFieldNames
  simp [List.append_subset, presentKeys_subset_iff]

/-- C10: the merged record never contains a market_cap field: the merge is
unchanged if every reported market_cap value is erased from the input, the
key "market_cap" never occurs among the merged record's keys, and the merged
keys are confined to name, the twelve merged data fields and the three
derived fields. -/
theorem merged_record_no_market_cap (m : SourceMap) (cn : String) :
    merge_data_sources m.clearMarketCap cn = merge_data_sources m cn
    ∧ "market_cap" ∉ (merge_data_sources m cn).fieldNames
    ∧ (merge_data_sources m cn).fieldNames ⊆ allowedFieldNames := by
  refine ⟨?_, ?_, fieldNames_subset_allowed _⟩
  · unfold merge_data_sources
    rw [priorityResults_clearMarketCap, mergeFromResults_map_clear]
  · intro h
    exact absurd (fieldNames_subset_allowed _ h) (by decide)
